import Mathlib

/-!
Shallow embedding of the GDEF-table parser (`src/gdef.rs`) of `ttf-parser`.

A font byte buffer is a `List Nat` of byte values. The crate-level
collaborators (`Stream`, `Offset16`/`Offset32` reads, `LazyArray16`,
`ClassDefinitionTable`, `CoverageTable` from `parser.rs` / `ggg.rs`) are not
part of the given source tree; they are modelled from the spec's collaborator
contracts (spec §6): a bounds-checked cursor with fixed-width big-endian
integer reads, optional-offset reads that yield absent for zero, a counted
array reader, and class-definition / coverage decoders that are kept abstract
as function parameters (`classGet`, `cov`) since only their signatures matter
to this table's logic.
-/

namespace Gdef

/-- Modelled from the spec: the byte cursor of `parser.rs` (not under `src/`),
a bounds-checked position into a caller-owned byte buffer. -/
structure Stream where
  data : List Nat
  offset : Nat
deriving Repr, DecidableEq

/-- Modelled from the spec: `Stream::skip` advances the cursor without
interpreting the skipped bytes; bounds are checked only by later reads. -/
def Stream.skip (s : Stream) (n : Nat) : Stream :=
  ⟨s.data, s.offset + n⟩

/-- Modelled from the spec: bounds-checked big-endian `u16` read. -/
def Stream.readU16 (s : Stream) : Option (Nat × Stream) :=
  if s.offset + 2 ≤ s.data.length then
    some (s.data.getD s.offset 0 * 256 + s.data.getD (s.offset + 1) 0,
          ⟨s.data, s.offset + 2⟩)
  else
    none

/-- Modelled from the spec: bounds-checked big-endian `u32` read. -/
def Stream.readU32 (s : Stream) : Option (Nat × Stream) :=
  if s.offset + 4 ≤ s.data.length then
    some (((s.data.getD s.offset 0 * 256 + s.data.getD (s.offset + 1) 0) * 256
            + s.data.getD (s.offset + 2) 0) * 256 + s.data.getD (s.offset + 3) 0,
          ⟨s.data, s.offset + 4⟩)
  else
    none

/-- Modelled from the spec: reading an `Option Offset16` is a `u16` read whose
zero value means "offset absent" (spec §6: optional-offset reads yield absent
for a zero value). The outer `Option` is the bounds check. -/
def Stream.readOptOffset16 (s : Stream) : Option (Option Nat × Stream) :=
  (s.readU16).map (fun vs => (if vs.1 = 0 then none else some vs.1, vs.2))

/-- Modelled from the spec: read `n` consecutive big-endian `u32` values. -/
def Stream.readU32s (s : Stream) : Nat → Option (List Nat × Stream)
  | 0 => some ([], s)
  | n + 1 =>
    match s.readU32 with
    | none => none
    | some (v, s1) =>
      match s1.readU32s n with
      | none => none
      | some (vs, s2) => some (v :: vs, s2)

/-- Modelled from the spec: the counted-array reader `read_array16::<Offset32>`
(spec §6): a 16-bit count followed by `count` 32-bit offsets; fails when the
buffer holds fewer bytes than the count demands. -/
def Stream.readArray16Off32 (s : Stream) : Option (List Nat × Stream) :=
  match s.readU16 with
  | none => none
  | some (count, s1) => s1.readU32s count

/-- The Rust slice operation `data.get(offset..)`: `some` suffix when
`offset ≤ data.length` (an offset equal to the length yields the empty
suffix), `none` when the offset points past the end. -/
def sliceFrom (data : List Nat) (offset : Nat) : Option (List Nat) :=
  if offset ≤ data.length then some (data.drop offset) else none

/-- Modelled from the spec: `ClassDefinitionTable::new` (from `ggg.rs`, not
under `src/`) keeps only a non-owning view of the subtable bytes; decoding is
deferred to the collaborator's lookup, kept abstract as a `classGet`
function parameter of the queries. -/
structure ClassDefinitionTable where
  data : List Nat
deriving Repr, DecidableEq

/-- `GlyphClass` from `gdef.rs`: the closed enumeration
Base = 1, Ligature = 2, Mark = 3, Component = 4. -/
inductive GlyphClass where
  | Base
  | Ligature
  | Mark
  | Component
deriving Repr, DecidableEq

/-- The resolved GDEF `Table` of `gdef.rs`: three optional subtable views.
The mark-glyph-sets field keeps the subtable's base bytes together with the
decoded list of 32-bit coverage offsets (`LazyArray16<Offset32>`). -/
structure Table where
  glyph_classes : Option ClassDefinitionTable
  mark_attach_classes : Option ClassDefinitionTable
  mark_glyph_coverage_offsets : Option (List Nat × List Nat)
deriving Repr, DecidableEq

/-- Lines 49-59 of `gdef.rs`, one class-definition offset: if the optional
offset is present and the slice from it succeeds, keep the view; otherwise the
subtable stays absent. -/
def resolveClassDef (data : List Nat) : Option Nat → Option ClassDefinitionTable
  | none => none
  | some offset =>
    match sliceFrom data offset with
    | some subdata => some ⟨subdata⟩
    | none => none

/-- Lines 61-71 of `gdef.rs`, the mark-glyph-sets stage. The outer `Option` is
`parse`'s own result: `none` reproduces the `?` on the format read, which
aborts the whole `parse`; `some mg` continues with field value `mg`. A
non-1 format or a failed array read degrade the field to absent without
aborting. -/
def resolveMarkGlyphSets (data : List Nat) :
    Option Nat → Option (Option (List Nat × List Nat))
  | none => some none
  | some offset =>
    match sliceFrom data offset with
    | none => some none
    | some subdata =>
      match (Stream.mk subdata 0).readU16 with
      | none => none
      | some (format, s1) =>
        if format = 1 then
          match s1.readArray16Off32 with
          | some (array, _) => some (some (subdata, array))
          | none => some none
        else
          some none

/-- `Table::parse` of `gdef.rs` (lines 27-74): read the 32-bit version and
reject all but 0x00010000 / 0x00010002 / 0x00010003; read the optional
glyph-class-def offset; skip attachListOffset and ligCaretListOffset; read the
optional mark-attach-class-def offset; read the optional mark-glyph-sets
offset only when version > 0x00010000; then resolve the three subtables. -/
def Table.parse (data : List Nat) : Option Table :=
  match (Stream.mk data 0).readU32 with
  | none => none
  | some (version, s0) =>
    if version = 0x00010000 ∨ version = 0x00010002 ∨ version = 0x00010003 then
      match s0.readOptOffset16 with
      | none => none
      | some (glyph_class_def_offset, s1) =>
        match ((s1.skip 2).skip 2).readOptOffset16 with
        | none => none
        | some (mark_attach_class_def_offset, s2) =>
          match (if version > 0x00010000 then s2.readOptOffset16
                 else some (none, s2)) with
          | none => none
          | some (mark_glyph_sets_def_offset, _) =>
            match resolveMarkGlyphSets data mark_glyph_sets_def_offset with
            | none => none
            | some mg =>
              some { glyph_classes := resolveClassDef data glyph_class_def_offset
                     mark_attach_classes := resolveClassDef data mark_attach_class_def_offset
                     mark_glyph_coverage_offsets := mg }
    else
      none

/-- The `Font` wrapper of `gdef.rs`: the queries go through an optional
resolved GDEF table. -/
structure Font where
  gdef : Option Table

/-- `Font::glyph_class` (lines 90-98): look the glyph up in the glyph-class
subtable via the collaborator `classGet` and map raw values 1/2/3/4 to the
enumeration; everything else, and every absent stage, is `none`. -/
def glyph_class (classGet : List Nat → Nat → Nat) (font : Font)
    (glyph_id : Nat) : Option GlyphClass :=
  match font.gdef with
  | none => none
  | some gdef =>
    match gdef.glyph_classes with
    | none => none
    | some classes =>
      match classGet classes.data glyph_id with
      | 1 => some GlyphClass.Base
      | 2 => some GlyphClass.Ligature
      | 3 => some GlyphClass.Mark
      | 4 => some GlyphClass.Component
      | _ => none

/-- `Font::glyph_mark_attachment_class` (lines 104-108): the raw class value
from the mark-attach subtable, or 0 when any stage is absent. -/
def glyph_mark_attachment_class (classGet : List Nat → Nat → Nat) (font : Font)
    (glyph_id : Nat) : Nat :=
  match font.gdef with
  | none => 0
  | some gdef =>
    match gdef.mark_attach_classes with
    | none => 0
    | some def0 => classGet def0.data glyph_id

/-- The scan-mode loop of `is_mark_glyph_impl` (lines 139-144): walk the
offsets in stored order; an unresolvable offset propagates `none` out of the
whole call (the `?` on the slice), a membership hit returns `some ()`, and
exhaustion falls through to `none`. -/
def markScan (cov : List Nat → Nat → Bool) (data : List Nat) (glyph_id : Nat) :
    List Nat → Option Unit
  | [] => none
  | offset :: rest =>
    match sliceFrom data offset with
    | none => none
    | some sub =>
      if cov sub glyph_id then some () else markScan cov data glyph_id rest

/-- `is_mark_glyph_impl` (lines 124-148): require the mark-glyph-sets data;
in indexed mode resolve the single offset at the index (out-of-bounds index or
unresolvable offset give `none`), in scan mode run the loop. -/
def is_mark_glyph_impl (cov : List Nat → Nat → Bool) (table : Option Table)
    (glyph_id : Nat) (set_index : Option Nat) : Option Unit :=
  match table with
  | none => none
  | some t =>
    match t.mark_glyph_coverage_offsets with
    | none => none
    | some (data, offsets) =>
      match set_index with
      | some set_index =>
        match offsets.get? set_index with
        | none => none
        | some offset =>
          match sliceFrom data offset with
          | none => none
          | some sub => if cov sub glyph_id then some () else none
      | none => markScan cov data glyph_id offsets

/-- `Font::is_mark_glyph` (lines 118-120): the boolean shell over
`is_mark_glyph_impl`. -/
def is_mark_glyph (cov : List Nat → Nat → Bool) (font : Font) (glyph_id : Nat)
    (set_index : Option Nat) : Bool :=
  (is_mark_glyph_impl cov font.gdef glyph_id set_index).isSome

/-- The number of leading resolvable coverage offsets: the position of the
first offset pointing past the end of the subtable bytes (the whole list when
every offset resolves). -/
def resolvableCount (data : List Nat) : List Nat → Nat
  | [] => 0
  | offset :: rest =>
    if offset ≤ data.length then resolvableCount data rest + 1 else 0

/-- The 32-bit version word formed from the first four bytes. -/
def versionWord (data : List Nat) : Nat :=
  ((data.getD 0 0 * 256 + data.getD 1 0) * 256 + data.getD 2 0) * 256
    + data.getD 3 0

/-- The optional 16-bit offset stored at byte position `i` (zero means
absent), as read by the header parser. -/
def offset16At (data : List Nat) (i : Nat) : Option Nat :=
  if data.getD i 0 * 256 + data.getD (i + 1) 0 = 0 then none
  else some (data.getD i 0 * 256 + data.getD (i + 1) 0)

/-! Evaluation lemmas for the modelled cursor reads. -/

theorem Stream.readU16_eq (data : List Nat) (i : Nat) (h : i + 2 ≤ data.length) :
    (Stream.mk data i).readU16 =
      some (data.getD i 0 * 256 + data.getD (i + 1) 0, Stream.mk data (i + 2)) := by
  simp [Stream.readU16, h]

theorem Stream.readU16_none (data : List Nat) (i : Nat) (h : data.length < i + 2) :
    (Stream.mk data i).readU16 = none := by
  simp [Stream.readU16]
  omega

theorem Stream.readU32_eq (data : List Nat) (i : Nat) (h : i + 4 ≤ data.length) :
    (Stream.mk data i).readU32 =
      some (((data.getD i 0 * 256 + data.getD (i + 1) 0) * 256
              + data.getD (i + 2) 0) * 256 + data.getD (i + 3) 0,
            Stream.mk data (i + 4)) := by
  simp [Stream.readU32, h]

theorem Stream.readU32_none (data : List Nat) (i : Nat) (h : data.length < i + 4) :
    (Stream.mk data i).readU32 = none := by
  simp [Stream.readU32]
  omega

theorem Stream.readOptOffset16_eq (data : List Nat) (i : Nat)
    (h : i + 2 ≤ data.length) :
    (Stream.mk data i).readOptOffset16 =
      some (offset16At data i, Stream.mk data (i + 2)) := by
  rw [Stream.readOptOffset16, Stream.readU16_eq data i h]
  simp [offset16At]

theorem Stream.readOptOffset16_none (data : List Nat) (i : Nat)
    (h : data.length < i + 2) :
    (Stream.mk data i).readOptOffset16 = none := by
  rw [Stream.readOptOffset16, Stream.readU16_none data i h]
  rfl

theorem Stream.readU32s_length (n : Nat) :
    ∀ (s : Stream) (vs : List Nat) (s1 : Stream),
      s.readU32s n = some (vs, s1) → vs.length = n := by
  induction n with
  | zero =>
    intro s vs s1 h
    simp [Stream.readU32s] at h
    simp [h.1]
  | succ n ih =>
    intro s vs s1 h
    rw [Stream.readU32s] at h
    cases h0 : s.readU32 with
    | none => simp [h0] at h
    | some vp =>
      obtain ⟨v, s2⟩ := vp
      simp only [h0] at h
      cases h1 : s2.readU32s n with
      | none => simp [h1] at h
      | some p =>
        obtain ⟨vs2, s3⟩ := p
        simp only [h1] at h
        have hlen := ih s2 vs2 s3 h1
        simp at h
        simp [← h.1, hlen]

/-- The version word read of a buffer with at least 4 bytes. -/
theorem readU32_versionWord (data : List Nat) (h : 4 ≤ data.length) :
    (Stream.mk data 0).readU32 = some (versionWord data, Stream.mk data 4) := by
  rw [Stream.readU32_eq data 0 (by omega)]
  rfl

/-- A buffer shorter than the 12-byte fixed header never parses: one of the
header reads runs past the end. -/
theorem parse_short_none (data : List Nat) (h : data.length < 12) :
    Table.parse data = none := by
  by_cases h4 : 4 ≤ data.length
  · by_cases h6 : 6 ≤ data.length
    · have e4 : (Stream.mk data 4).readOptOffset16
          = some (offset16At data 4, Stream.mk data 6) := by
        simpa using Stream.readOptOffset16_eq data 4 (by omega)
      have e10 : (Stream.mk data 10).readOptOffset16 = none :=
        Stream.readOptOffset16_none data 10 (by omega)
      simp [Table.parse, readU32_versionWord data h4, e4, e10, Stream.skip]
    · have e4 : (Stream.mk data 4).readOptOffset16 = none :=
        Stream.readOptOffset16_none data 4 (by omega)
      simp [Table.parse, readU32_versionWord data h4, e4]
  · simp [Table.parse, Stream.readU32_none data 0 (by omega)]

/-- Characterization of `Table.parse` on buffers long enough for the
version's fixed header: the result is built pointwise from the three header
offsets, with only the mark-glyph-sets stage able to abort the whole parse. -/
theorem parse_char (data : List Nat)
    (hv : versionWord data = 0x00010000 ∨ versionWord data = 0x00010002 ∨
          versionWord data = 0x00010003)
    (hlen : if versionWord data = 0x00010000 then 12 ≤ data.length
            else 14 ≤ data.length) :
    Table.parse data =
      (resolveMarkGlyphSets data
          (if versionWord data = 0x00010000 then none
           else offset16At data 12)).map
        (fun mg =>
          { glyph_classes := resolveClassDef data (offset16At data 4)
            mark_attach_classes := resolveClassDef data (offset16At data 10)
            mark_glyph_coverage_offsets := mg }) := by
  have h12 : 12 ≤ data.length := by
    by_cases h : versionWord data = 0x00010000
    · simpa [h] using hlen
    · have h14 : 14 ≤ data.length := by simpa [h] using hlen
      omega
  have e4 : (Stream.mk data 4).readOptOffset16
      = some (offset16At data 4, Stream.mk data 6) := by
    simpa using Stream.readOptOffset16_eq data 4 (by omega)
  have e10 : (Stream.mk data 10).readOptOffset16
      = some (offset16At data 10, Stream.mk data 12) := by
    simpa using Stream.readOptOffset16_eq data 10 (by omega)
  by_cases h0 : versionWord data = 0x00010000
  · cases hmg : resolveMarkGlyphSets data none with
    | none =>
      simp [Table.parse, readU32_versionWord data (by omega), e4, e10,
        Stream.skip, h0, hmg]
    | some mg =>
      simp [Table.parse, readU32_versionWord data (by omega), e4, e10,
        Stream.skip, h0, hmg]
  · have h14 : 14 ≤ data.length := by simpa [h0] using hlen
    have hv2 : versionWord data = 0x00010002 ∨ versionWord data = 0x00010003 := by
      rcases hv with h | h | h
      · exact absurd h h0
      · exact Or.inl h
      · exact Or.inr h
    have hgt : versionWord data > 0x00010000 := by
      rcases hv2 with h | h <;> omega
    have e12 : (Stream.mk data 12).readOptOffset16
        = some (offset16At data 12, Stream.mk data 14) := by
      simpa using Stream.readOptOffset16_eq data 12 (by omega)
    cases hmg : resolveMarkGlyphSets data (offset16At data 12) with
    | none =>
      simp [Table.parse, readU32_versionWord data (by omega), e4, e10, e12,
        Stream.skip, h0, hv2, hgt, hmg]
    | some mg =>
      simp [Table.parse, readU32_versionWord data (by omega), e4, e10, e12,
        Stream.skip, h0, hv2, hgt, hmg]

/-- The mark-glyph-sets stage cannot abort when its offset resolves to a view
of at least 2 bytes (or is absent, or points past the end). -/
theorem resolveMarkGlyphSets_some_isSome (data : List Nat) (o : Nat)
    (ho : o ≤ data.length) (h2 : o + 2 ≤ data.length) :
    (resolveMarkGlyphSets data (some o)).isSome = true := by
  cases hr : (Stream.mk (data.drop o) 0).readU16 with
  | none =>
    rw [Stream.readU16_eq (data.drop o) 0 (by simp; omega)] at hr
    exact absurd hr (by simp)
  | some fs =>
    obtain ⟨format, s1⟩ := fs
    by_cases hf : format = 1
    · cases harr : s1.readArray16Off32 with
      | none => simp [resolveMarkGlyphSets, sliceFrom, ho, hr, hf, harr]
      | some p =>
        obtain ⟨arr, s2⟩ := p
        simp [resolveMarkGlyphSets, sliceFrom, ho, hr, hf, harr]
    · simp [resolveMarkGlyphSets, sliceFrom, ho, hr, hf]

/-- C2: for every byte buffer whose first four bytes, read as a 32-bit version
word, are not one of 0x00010000, 0x00010002, 0x00010003, `Table.parse` returns
`none` (table absent), regardless of the remaining bytes. -/
theorem parse_unrecognized_version_absent (data : List Nat)
    (h4 : 4 ≤ data.length)
    (h1 : versionWord data ≠ 0x00010000)
    (h2 : versionWord data ≠ 0x00010002)
    (h3 : versionWord data ≠ 0x00010003) :
    Table.parse data = none := by
  simp [Table.parse, readU32_versionWord data h4, h1, h2, h3]

/-- Witness for C2 at version word 0x00020000 with arbitrary trailing bytes. -/
theorem parse_unrecognized_version_absent_witness :
    Table.parse [0, 2, 0, 0, 1, 2, 3, 4, 5, 6, 7, 8, 9, 10] = none :=
  parse_unrecognized_version_absent _ (by decide) (by decide) (by decide)
    (by decide)

/-- C3 counterexample: the version word 0x00010000 is recognized, yet `parse`
fails on this 4-byte buffer because the header read of the glyph-class offset
runs past the end; the claim that a recognized version always yields a table
object is false. -/
theorem parse_recognized_version_can_fail :
    versionWord [0, 1, 0, 0] = 0x00010000 ∧ Table.parse [0, 1, 0, 0] = none :=
  ⟨by decide, by decide⟩

/-- C3 as amended: for a recognized version word, `parse` yields a table
object (never a hard failure) provided the buffer covers the version's fixed
header (12 bytes for 1.0, 14 bytes for 1.2/1.3) and, whenever the
mark-glyph-sets offset is present and in range, the view it resolves to holds
at least 2 bytes for the format read. -/
theorem parse_recognized_version_total (data : List Nat)
    (hv : versionWord data = 0x00010000 ∨ versionWord data = 0x00010002 ∨
          versionWord data = 0x00010003)
    (hlen : if versionWord data = 0x00010000 then 12 ≤ data.length
            else 14 ≤ data.length)
    (hmgs : ∀ o, offset16At data 12 = some o → o ≤ data.length →
        o + 2 ≤ data.length) :
    (Table.parse data).isSome = true := by
  rw [parse_char data hv hlen]
  by_cases h0 : versionWord data = 0x00010000
  · simp [h0, resolveMarkGlyphSets]
  · rw [if_neg h0]
    cases ho : offset16At data 12 with
    | none => simp [resolveMarkGlyphSets]
    | some o =>
      by_cases hin : o ≤ data.length
      · have := resolveMarkGlyphSets_some_isSome data o hin (hmgs o ho hin)
        cases hmg : resolveMarkGlyphSets data (some o) with
        | none => rw [hmg] at this; exact absurd this (by simp)
        | some mg => simp [hmg]
      · simp [resolveMarkGlyphSets, sliceFrom, hin]

/-- Witness for the amended C3: version 1.2, complete header, mark-glyph-sets
offset resolving to a 2-byte view with an unsupported format. -/
theorem parse_recognized_version_total_witness :
    (Table.parse [0, 1, 0, 2, 0, 4, 0, 0, 0, 0, 0, 4, 0, 14, 0, 2]).isSome
      = true := by
  apply parse_recognized_version_total
  · exact Or.inr (Or.inl (by decide))
  · decide
  · intro o ho hin
    have h14 : offset16At [0, 1, 0, 2, 0, 4, 0, 0, 0, 0, 0, 4, 0, 14, 0, 2] 12
        = some 14 := by decide
    rw [h14] at ho
    cases ho
    decide

/-- C10: when a recognized version above 1.0 carries a mark-glyph-sets offset
that is present and in range but resolves to a view of fewer than 2 bytes, the
failing format read aborts `parse` entirely: the whole table comes back
absent, including the class-definition subtables that had already resolved. -/
theorem parse_truncated_mark_glyph_sets_none (data : List Nat) (o : Nat)
    (hv : versionWord data = 0x00010002 ∨ versionWord data = 0x00010003)
    (hlen : 14 ≤ data.length)
    (ho : offset16At data 12 = some o)
    (hin : o ≤ data.length)
    (hshort : data.length < o + 2) :
    Table.parse data = none := by
  have hne : versionWord data ≠ 0x00010000 := by rcases hv with h | h <;> omega
  rw [parse_char data (Or.inr hv) (by simp [hne, hlen])]
  rw [if_neg hne, ho]
  have hr : (Stream.mk (data.drop o) 0).readU16 = none := by
    apply Stream.readU16_none
    simp
    omega
  simp [resolveMarkGlyphSets, sliceFrom, hin, hr]

/-- Witness for C10: a 14-byte version-1.2 table whose glyph-class and
mark-attach offsets resolve, with mark-glyph-sets offset 14 slicing to the
empty view. -/
theorem parse_truncated_mark_glyph_sets_none_witness :
    Table.parse [0, 1, 0, 2, 0, 4, 0, 0, 0, 0, 0, 4, 0, 14] = none :=
  parse_truncated_mark_glyph_sets_none _ 14 (Or.inl (by decide)) (by decide)
    (by decide) (by decide) (by decide)

/-- C4: for every class-definition collaborator `classGet`, `glyph_class`
returns `Base` when the raw lookup yields 1, `Ligature` for 2, `Mark` for 3,
`Component` for 4, and `none` for every other raw value including 0; it is
also `none` whenever the table or its glyph-class subtable is absent. -/
theorem glyph_class_cases (classGet : List Nat → Nat → Nat) (font : Font)
    (glyph_id : Nat) :
    (font.gdef.bind Table.glyph_classes = none →
        glyph_class classGet font glyph_id = none) ∧
    (∀ c, font.gdef.bind Table.glyph_classes = some c →
        glyph_class classGet font glyph_id =
          if classGet c.data glyph_id = 1 then some GlyphClass.Base
          else if classGet c.data glyph_id = 2 then some GlyphClass.Ligature
          else if classGet c.data glyph_id = 3 then some GlyphClass.Mark
          else if classGet c.data glyph_id = 4 then some GlyphClass.Component
          else none) := by
  constructor
  · intro h
    cases hg : font.gdef with
    | none => simp [glyph_class, hg]
    | some t =>
      rw [hg] at h
      simp only [Option.some_bind] at h
      simp [glyph_class, hg, h]
  · intro c hc
    cases hg : font.gdef with
    | none => rw [hg] at hc; exact absurd hc (by simp)
    | some t =>
      rw [hg] at hc
      simp only [Option.some_bind] at hc
      simp only [glyph_class, hg, hc]
      generalize classGet c.data glyph_id = v
      rcases v with _ | _ | _ | _ | _ | n
      · rfl
      · rfl
      · rfl
      · rfl
      · rfl
      · rw [if_neg (by omega), if_neg (by omega), if_neg (by omega),
          if_neg (by omega)]
        rfl

/-- Witness for C4: a present glyph-class subtable with the identity lookup
sends glyph 3 to `Mark`. -/
theorem glyph_class_cases_witness :
    glyph_class (fun _ g => g) ⟨some ⟨some ⟨[]⟩, none, none⟩⟩ 3
      = some GlyphClass.Mark := by
  have h := (glyph_class_cases (fun _ g => g) ⟨some ⟨some ⟨[]⟩, none, none⟩⟩ 3).2
    ⟨[]⟩ rfl
  simpa using h

/-- C5: `glyph_mark_attachment_class` is total by its type (it always yields
a class number); it returns 0 whenever the table or the mark-attach subtable
is absent (the collaborator contract likewise sends glyphs without an entry
to the default 0), and otherwise passes the raw collaborator value through
unmodified, with no restriction to 1..4. -/
theorem glyph_mark_attachment_class_cases (classGet : List Nat → Nat → Nat)
    (font : Font) (glyph_id : Nat) :
    (font.gdef.bind Table.mark_attach_classes = none →
        glyph_mark_attachment_class classGet font glyph_id = 0) ∧
    (∀ c, font.gdef.bind Table.mark_attach_classes = some c →
        glyph_mark_attachment_class classGet font glyph_id
          = classGet c.data glyph_id) := by
  constructor
  · intro h
    cases hg : font.gdef with
    | none => simp [glyph_mark_attachment_class, hg]
    | some t =>
      rw [hg] at h
      simp only [Option.some_bind] at h
      simp [glyph_mark_attachment_class, hg, h]
  · intro c hc
    cases hg : font.gdef with
    | none => rw [hg] at hc; exact absurd hc (by simp)
    | some t =>
      rw [hg] at hc
      simp only [Option.some_bind] at hc
      simp [glyph_mark_attachment_class, hg, hc]

/-- Witness for C5: a raw class value 77 (outside 1..4) is returned
unmodified. -/
theorem glyph_mark_attachment_class_cases_witness :
    glyph_mark_attachment_class (fun _ _ => 77)
      ⟨some ⟨none, some ⟨[]⟩, none⟩⟩ 9 = 77 :=
  (glyph_mark_attachment_class_cases (fun _ _ => 77)
    ⟨some ⟨none, some ⟨[]⟩, none⟩⟩ 9).2 ⟨[]⟩ rfl

/-- C6: in indexed mode, an index at or beyond the stored offset-array length
yields `false`; an in-bounds index is decided by that one offset alone —
resolve it and test coverage membership, `false` when it points past the end
of the subtable bytes — so the other offsets in the array play no part. -/
theorem is_mark_glyph_indexed_cases (cov : List Nat → Nat → Bool)
    (font : Font) (glyph_id k : Nat) (data offsets : List Nat)
    (hm : font.gdef.bind Table.mark_glyph_coverage_offsets
        = some (data, offsets)) :
    (offsets.length ≤ k →
        is_mark_glyph cov font glyph_id (some k) = false) ∧
    (∀ o, offsets.get? k = some o →
        is_mark_glyph cov font glyph_id (some k) =
          match sliceFrom data o with
          | some sub => cov sub glyph_id
          | none => false) := by
  obtain ⟨t, hg, hmg⟩ : ∃ t, font.gdef = some t ∧
      t.mark_glyph_coverage_offsets = some (data, offsets) := by
    cases hg : font.gdef with
    | none => rw [hg] at hm; exact absurd hm (by simp)
    | some t =>
      rw [hg] at hm
      simp only [Option.some_bind] at hm
      exact ⟨t, rfl, hm⟩
  constructor
  · intro hk
    have hnone : offsets[k]? = none := List.getElem?_eq_none hk
    simp [is_mark_glyph, is_mark_glyph_impl, hg, hmg, hnone]
  · intro o ho
    rw [List.get?_eq_getElem?] at ho
    cases hs : sliceFrom data o with
    | none => simp [is_mark_glyph, is_mark_glyph_impl, hg, hmg, ho, hs]
    | some sub =>
      by_cases hc : cov sub glyph_id
      · simp [is_mark_glyph, is_mark_glyph_impl, hg, hmg, ho, hs, hc]
      · simp [is_mark_glyph, is_mark_glyph_impl, hg, hmg, ho, hs, hc]

/-- Witness for C6: a two-set table queried at the out-of-bounds index 2 and
at the in-bounds index 1 whose offset points past the end. -/
theorem is_mark_glyph_indexed_cases_witness :
    is_mark_glyph (fun _ _ => true) ⟨some ⟨none, none, some ([0, 0], [0, 9])⟩⟩
      5 (some 2) = false ∧
    is_mark_glyph (fun _ _ => true) ⟨some ⟨none, none, some ([0, 0], [0, 9])⟩⟩
      5 (some 1) = false := by
  constructor
  · exact (is_mark_glyph_indexed_cases (fun _ _ => true)
      ⟨some ⟨none, none, some ([0, 0], [0, 9])⟩⟩ 5 2 [0, 0] [0, 9]
      rfl).1 (by decide)
  · have h := (is_mark_glyph_indexed_cases (fun _ _ => true)
      ⟨some ⟨none, none, some ([0, 0], [0, 9])⟩⟩ 5 1 [0, 0]
      [0, 9] rfl).2 9 (by decide)
    simpa [sliceFrom] using h

/-- The scan loop hits exactly the union of the coverage sets that precede
the first unresolvable offset: membership in any set at or beyond that point
is never consulted. -/
theorem markScan_isSome_iff (cov : List Nat → Nat → Bool) (data : List Nat)
    (glyph_id : Nat) (offsets : List Nat) :
    (markScan cov data glyph_id offsets).isSome = true ↔
      ∃ o ∈ offsets.take (resolvableCount data offsets),
        cov (data.drop o) glyph_id = true := by
  induction offsets with
  | nil => simp [markScan, resolvableCount]
  | cons o rest ih =>
    by_cases ho : o ≤ data.length
    · by_cases hc : cov (data.drop o) glyph_id
      · simp [markScan, sliceFrom, resolvableCount, ho, hc]
      · simp [markScan, sliceFrom, resolvableCount, ho, hc, ih]
    · simp [markScan, sliceFrom, resolvableCount, ho]

/-- C1: in scan mode, `is_mark_glyph` returns true iff the glyph belongs to
some coverage set whose offset precedes the first unresolvable offset in
stored order; one unresolvable offset aborts the scan, so a match in any
later set is never found. -/
theorem is_mark_glyph_scan_iff (cov : List Nat → Nat → Bool) (font : Font)
    (glyph_id : Nat) (data offsets : List Nat)
    (hm : font.gdef.bind Table.mark_glyph_coverage_offsets
        = some (data, offsets)) :
    is_mark_glyph cov font glyph_id none = true ↔
      ∃ o ∈ offsets.take (resolvableCount data offsets),
        cov (data.drop o) glyph_id = true := by
  obtain ⟨t, hg, hmg⟩ : ∃ t, font.gdef = some t ∧
      t.mark_glyph_coverage_offsets = some (data, offsets) := by
    cases hg : font.gdef with
    | none => rw [hg] at hm; exact absurd hm (by simp)
    | some t =>
      rw [hg] at hm
      simp only [Option.some_bind] at hm
      exact ⟨t, rfl, hm⟩
  simp only [is_mark_glyph, is_mark_glyph_impl, hg, hmg]
  exact markScan_isSome_iff cov data glyph_id offsets

/-- Witness for C1: with stored order [99, 10] over 14 subtable bytes, offset
99 is unresolvable first and the scan finds nothing, although the set at
offset 10 contains glyph 7; with stored order [10, 99] the same set is
scanned before the corruption and the glyph is found. -/
theorem is_mark_glyph_scan_iff_witness :
    is_mark_glyph (fun sub g => decide (g = 7 ∧ sub.length = 4))
      ⟨some ⟨none, none,
        some ([0, 1, 0, 2, 0, 0, 0, 10, 0, 0, 0, 99, 7, 7], [99, 10])⟩⟩
      7 none = false ∧
    is_mark_glyph (fun sub g => decide (g = 7 ∧ sub.length = 4))
      ⟨some ⟨none, none,
        some ([0, 1, 0, 2, 0, 0, 0, 10, 0, 0, 0, 99, 7, 7], [10, 99])⟩⟩
      7 none = true := by
  constructor
  · have h := is_mark_glyph_scan_iff (fun sub g => decide (g = 7 ∧ sub.length = 4))
      ⟨some ⟨none, none,
        some ([0, 1, 0, 2, 0, 0, 0, 10, 0, 0, 0, 99, 7, 7], [99, 10])⟩⟩
      7 [0, 1, 0, 2, 0, 0, 0, 10, 0, 0, 0, 99, 7, 7] [99, 10] rfl
    rw [← Bool.not_eq_true]
    intro hb
    exact absurd (h.mp hb) (by decide)
  · exact (is_mark_glyph_scan_iff (fun sub g => decide (g = 7 ∧ sub.length = 4))
      ⟨some ⟨none, none,
        some ([0, 1, 0, 2, 0, 0, 0, 10, 0, 0, 0, 99, 7, 7], [10, 99])⟩⟩
      7 [0, 1, 0, 2, 0, 0, 0, 10, 0, 0, 0, 99, 7, 7] [10, 99] rfl).mpr
      (by decide)

/-- Each field of a parsed table is determined by data and its own header
offset alone. -/
theorem parse_fields_pointwise (data : List Nat)
    (hv : versionWord data = 0x00010000 ∨ versionWord data = 0x00010002 ∨
          versionWord data = 0x00010003)
    (hlen : if versionWord data = 0x00010000 then 12 ≤ data.length
            else 14 ≤ data.length) :
    ∀ t, Table.parse data = some t →
      t.glyph_classes = resolveClassDef data (offset16At data 4) ∧
      t.mark_attach_classes = resolveClassDef data (offset16At data 10) ∧
      resolveMarkGlyphSets data
          (if versionWord data = 0x00010000 then none
           else offset16At data 12)
        = some t.mark_glyph_coverage_offsets := by
  intro t hpt
  rw [parse_char data hv hlen] at hpt
  cases hmg : resolveMarkGlyphSets data
      (if versionWord data = 0x00010000 then none
       else offset16At data 12) with
  | none => rw [hmg] at hpt; exact absurd hpt (by simp)
  | some mg =>
    rw [hmg] at hpt
    simp only [Option.map_some'] at hpt
    cases hpt
    exact ⟨rfl, rfl, rfl⟩

/-- C7: under a recognized version and a complete fixed header, a
class-definition offset that is unresolvable — zero (hence read as absent) or
pointing past the end of the buffer — degrades only its own subtable to
absent: the other class-definition field and the mark-glyph-sets field come
out exactly as their own offsets dictate, and whether `parse` succeeds at all
never depends on the two class-definition offsets. -/
theorem parse_classdef_offset_degrades_locally (data : List Nat)
    (hv : versionWord data = 0x00010000 ∨ versionWord data = 0x00010002 ∨
          versionWord data = 0x00010003)
    (hlen : if versionWord data = 0x00010000 then 12 ≤ data.length
            else 14 ≤ data.length) :
    (∀ o, offset16At data 4 = some o → data.length < o →
      ∀ t, Table.parse data = some t →
        t.glyph_classes = none ∧
        t.mark_attach_classes = resolveClassDef data (offset16At data 10) ∧
        resolveMarkGlyphSets data
            (if versionWord data = 0x00010000 then none
             else offset16At data 12)
          = some t.mark_glyph_coverage_offsets) ∧
    (∀ o, offset16At data 10 = some o → data.length < o →
      ∀ t, Table.parse data = some t →
        t.mark_attach_classes = none ∧
        t.glyph_classes = resolveClassDef data (offset16At data 4) ∧
        resolveMarkGlyphSets data
            (if versionWord data = 0x00010000 then none
             else offset16At data 12)
          = some t.mark_glyph_coverage_offsets) ∧
    (offset16At data 4 = none →
      ∀ t, Table.parse data = some t → t.glyph_classes = none) ∧
    (offset16At data 10 = none →
      ∀ t, Table.parse data = some t → t.mark_attach_classes = none) ∧
    (Table.parse data).isSome
      = (resolveMarkGlyphSets data
          (if versionWord data = 0x00010000 then none
           else offset16At data 12)).isSome := by
  have hfields := parse_fields_pointwise data hv hlen
  refine ⟨?_, ?_, ?_, ?_, ?_⟩
  · intro o ho hgt t hpt
    obtain ⟨h1, h2, h3⟩ := hfields t hpt
    refine ⟨?_, h2, h3⟩
    rw [h1, ho]
    simp [resolveClassDef, sliceFrom, show ¬ o ≤ data.length by omega]
  · intro o ho hgt t hpt
    obtain ⟨h1, h2, h3⟩ := hfields t hpt
    refine ⟨?_, h1, h3⟩
    rw [h2, ho]
    simp [resolveClassDef, sliceFrom, show ¬ o ≤ data.length by omega]
  · intro ho t hpt
    rw [(hfields t hpt).1, ho]
    rfl
  · intro ho t hpt
    rw [(hfields t hpt).2.1, ho]
    rfl
  · rw [parse_char data hv hlen]
    cases hmg : resolveMarkGlyphSets data
        (if versionWord data = 0x00010000 then none
         else offset16At data 12) with
    | none => simp [hmg]
    | some mg => simp [hmg]

/-- Witness for C7: version 1.0 with glyph-class offset 256 pointing past the
12-byte buffer while mark-attach offset 4 resolves. -/
theorem parse_classdef_offset_degrades_locally_witness :
    (⟨none, some ⟨[1, 0, 0, 0, 0, 0, 0, 4]⟩, none⟩ : Table).glyph_classes
        = none ∧
    (⟨none, some ⟨[1, 0, 0, 0, 0, 0, 0, 4]⟩, none⟩ : Table).mark_attach_classes
        = resolveClassDef [0, 1, 0, 0, 1, 0, 0, 0, 0, 0, 0, 4]
            (offset16At [0, 1, 0, 0, 1, 0, 0, 0, 0, 0, 0, 4] 10) ∧
    resolveMarkGlyphSets [0, 1, 0, 0, 1, 0, 0, 0, 0, 0, 0, 4]
        (if versionWord [0, 1, 0, 0, 1, 0, 0, 0, 0, 0, 0, 4] = 0x00010000
         then none
         else offset16At [0, 1, 0, 0, 1, 0, 0, 0, 0, 0, 0, 4] 12)
      = some (⟨none, some ⟨[1, 0, 0, 0, 0, 0, 0, 4]⟩, none⟩ :
          Table).mark_glyph_coverage_offsets :=
  (parse_classdef_offset_degrades_locally [0, 1, 0, 0, 1, 0, 0, 0, 0, 0, 0, 4]
    (Or.inl (by decide)) (by decide)).1 256 (by decide) (by decide)
    ⟨none, some ⟨[1, 0, 0, 0, 0, 0, 0, 4]⟩, none⟩ (by decide)

/-- C8: when the mark-glyph-sets offset resolves, a 16-bit format is read; a
format other than 1 leaves the whole mark-glyph-sets feature absent — and with
the feature absent every `is_mark_glyph` query is false — while format 1 reads
a 16-bit count followed by that many 32-bit offsets and stores them together
with the subtable's base bytes. -/
theorem mark_glyph_sets_format_gate (data : List Nat) (o : Nat)
    (subdata : List Nat) (hs : sliceFrom data o = some subdata) :
    (∀ format s1, (Stream.mk subdata 0).readU16 = some (format, s1) →
        format ≠ 1 → resolveMarkGlyphSets data (some o) = some none) ∧
    (∀ format s1 count s2 array s3,
        (Stream.mk subdata 0).readU16 = some (format, s1) → format = 1 →
        s1.readU16 = some (count, s2) → s2.readU32s count = some (array, s3) →
        resolveMarkGlyphSets data (some o) = some (some (subdata, array)) ∧
          array.length = count) ∧
    (∀ t : Table, t.mark_glyph_coverage_offsets = none →
        ∀ cov glyph_id set_index,
          is_mark_glyph cov ⟨some t⟩ glyph_id set_index = false) := by
  refine ⟨?_, ?_, ?_⟩
  · intro format s1 hr hf
    simp [resolveMarkGlyphSets, hs, hr, hf]
  · intro format s1 count s2 array s3 hr hf h16 h32
    have harr : s1.readArray16Off32 = some (array, s3) := by
      simp [Stream.readArray16Off32, h16, h32]
    refine ⟨?_, Stream.readU32s_length count s2 array s3 h32⟩
    simp [resolveMarkGlyphSets, hs, hr, hf, harr]
  · intro t ht cov glyph_id set_index
    simp [is_mark_glyph, is_mark_glyph_impl, ht]

/-- Witness for C8: a format-1 subtable with count 2 and offsets 10 and 99,
stored together with its base bytes. -/
theorem mark_glyph_sets_format_gate_witness :
    resolveMarkGlyphSets [0, 1, 0, 2, 0, 0, 0, 10, 0, 0, 0, 99] (some 0)
      = some (some ([0, 1, 0, 2, 0, 0, 0, 10, 0, 0, 0, 99], [10, 99])) :=
  ((mark_glyph_sets_format_gate [0, 1, 0, 2, 0, 0, 0, 10, 0, 0, 0, 99] 0
    [0, 1, 0, 2, 0, 0, 0, 10, 0, 0, 0, 99] (by decide)).2.1 1
    (Stream.mk [0, 1, 0, 2, 0, 0, 0, 10, 0, 0, 0, 99] 2) 2
    (Stream.mk [0, 1, 0, 2, 0, 0, 0, 10, 0, 0, 0, 99] 4) [10, 99]
    (Stream.mk [0, 1, 0, 2, 0, 0, 0, 10, 0, 0, 0, 99] 12)
    (by decide) rfl (by decide) (by decide)).1

/-- Presence of a resolved class-definition view depends only on the offset
and the buffer length. -/
theorem resolveClassDef_isSome (data : List Nat) (o : Option Nat) :
    (resolveClassDef data o).isSome =
      match o with
      | none => false
      | some off => decide (off ≤ data.length) := by
  cases o with
  | none => rfl
  | some off =>
    by_cases h : off ≤ data.length <;> simp [resolveClassDef, sliceFrom, h]

/-- Bytes below position 12 agree on buffers with equal 12-byte prefixes. -/
theorem getD_eq_of_take_eq {d1 d2 : List Nat} (h : d1.take 12 = d2.take 12)
    {i : Nat} (hi : i < 12) : d1.getD i 0 = d2.getD i 0 := by
  have e1 : (d1.take 12)[i]? = d1[i]? := by
    rw [List.getElem?_take]
    simp [hi]
  have e2 : (d2.take 12)[i]? = d2[i]? := by
    rw [List.getElem?_take]
    simp [hi]
  rw [List.getD_eq_getElem?_getD, List.getD_eq_getElem?_getD, ← e1, ← e2, h]

set_option maxRecDepth 4000 in
/-- C9: for a buffer whose version word is exactly 0x00010000, the parse
outcome is blind to every byte from position 12 on: two buffers of equal
length agreeing on their first 12 bytes succeed or fail together with the
same subtable presence, and the resulting table never carries mark-glyph-sets
data (the offset field at position 12 is never consulted). -/
theorem parse_v10_ignores_tail (d1 d2 : List Nat)
    (hlen : d1.length = d2.length) (hpre : d1.take 12 = d2.take 12)
    (hv : versionWord d1 = 0x00010000) :
    ((Table.parse d1).isSome = (Table.parse d2).isSome) ∧
    ((Table.parse d1).map
        (fun t => (t.glyph_classes.isSome, t.mark_attach_classes.isSome))
      = (Table.parse d2).map
        (fun t => (t.glyph_classes.isSome, t.mark_attach_classes.isSome))) ∧
    (∀ t, Table.parse d1 = some t → t.mark_glyph_coverage_offsets = none) := by
  by_cases h12 : 12 ≤ d1.length
  · have hv2 : versionWord d2 = 0x00010000 := by
      unfold versionWord at hv ⊢
      rw [← getD_eq_of_take_eq hpre (by omega : (0:Nat) < 12),
        ← getD_eq_of_take_eq hpre (by omega : (1:Nat) < 12),
        ← getD_eq_of_take_eq hpre (by omega : (2:Nat) < 12),
        ← getD_eq_of_take_eq hpre (by omega : (3:Nat) < 12)]
      exact hv
    have ho4 : offset16At d1 4 = offset16At d2 4 := by
      unfold offset16At
      rw [getD_eq_of_take_eq hpre (by omega : (4:Nat) < 12),
        getD_eq_of_take_eq hpre (by omega : (5:Nat) < 12)]
    have ho10 : offset16At d1 10 = offset16At d2 10 := by
      unfold offset16At
      rw [getD_eq_of_take_eq hpre (by omega : (10:Nat) < 12),
        getD_eq_of_take_eq hpre (by omega : (11:Nat) < 12)]
    have hp1 := parse_char d1 (Or.inl hv) (by simp [hv, h12])
    have hp2 := parse_char d2 (Or.inl hv2) (by simp [hv2]; omega)
    have hval1 : Table.parse d1
        = some ⟨resolveClassDef d1 (offset16At d1 4),
            resolveClassDef d1 (offset16At d1 10), none⟩ := by
      rw [hp1]
      simp [hv, resolveMarkGlyphSets]
    have hval2 : Table.parse d2
        = some ⟨resolveClassDef d2 (offset16At d2 4),
            resolveClassDef d2 (offset16At d2 10), none⟩ := by
      rw [hp2]
      simp [hv2, resolveMarkGlyphSets]
    rw [hval1, hval2]
    refine ⟨rfl, ?_, ?_⟩
    · simp only [Option.map_some']
      rw [ho4, ho10, resolveClassDef_isSome, resolveClassDef_isSome,
        resolveClassDef_isSome, resolveClassDef_isSome, hlen]
    · intro t ht
      cases ht
      rfl
  · have hd : d1 = d2 := by
      rw [← List.take_of_length_le (by omega : d1.length ≤ 12), hpre,
        List.take_of_length_le (by omega : d2.length ≤ 12)]
    refine ⟨by rw [hd], by rw [hd], ?_⟩
    intro t ht
    rw [parse_short_none d1 (by omega)] at ht
    exact absurd ht (by simp)

/-- Witness for C9: two 13-byte version-1.0 buffers differing only in the
byte at position 12. -/
theorem parse_v10_ignores_tail_witness :
    (Table.parse [0, 1, 0, 0, 0, 4, 0, 0, 0, 0, 0, 6, 9]).isSome
      = (Table.parse [0, 1, 0, 0, 0, 4, 0, 0, 0, 0, 0, 6, 42]).isSome :=
  (parse_v10_ignores_tail [0, 1, 0, 0, 0, 4, 0, 0, 0, 0, 0, 6, 9]
    [0, 1, 0, 0, 0, 4, 0, 0, 0, 0, 0, 6, 42] (by decide) (by decide)
    (by decide)).1

end Gdef
